import Mathlib

/-
Verification of the DDG4 run-action dispatch core (DDG4/Geant4RunAction.h).

The repository provides the class declarations in
src/DDG4/include/DDG4/Geant4RunAction.h; the bodies of the member
functions and the helper types CallbackSequence and Actors live in other
translation units of the project. Where a definition below embeds code
that is visible in the header (member initializers, the inline bodies of
callAtBegin and callAtEnd) it follows that code; where only the design
document describes the behaviour, the doc comment starts with
"Modelled from the spec:" and names the missing piece.
-/

namespace DDG4

/-- Run handles (G4Run*) are opaque, externally owned tokens; the core never
inspects their contents and only passes them through. -/
abbrev RunHandle := Nat

/-- A Geant4Context reference. Contexts are opaque to this core; they are
identified abstractly by a numeric reference. -/
abbrev ContextRef := Nat

/-- A bound callback entry: the (target, operation) pair stored by
CallbackSequence.add. Targets and member-function pointers are opaque
here and identified by numeric ids. -/
structure CallbackEntry where
  target : Nat
  oper : Nat
deriving DecidableEq, Repr

/-- Observable dispatch events: a generic function-pointer callback firing,
or an owned actor receiving its begin-of-run or end-of-run call. -/
inductive Event where
  | callback (target : Nat) (oper : Nat) (run : RunHandle)
  | actorBegin (nam : String) (run : RunHandle)
  | actorEnd (nam : String) (run : RunHandle)
deriving DecidableEq, Repr

/-- Modelled from the spec: CallbackSequence (declared in
DDG4/Geant4Action.h, which is not part of the provided sources) is an
ordered list of bound (target, operation) entries. -/
structure CallbackSequence where
  entries : List CallbackEntry
deriving DecidableEq, Repr

/-- A freshly constructed CallbackSequence holds no entries. -/
def CallbackSequence.empty : CallbackSequence := ⟨[]⟩

/-- Modelled from the spec: CallbackSequence.add registers a callback with
no uniqueness check and never fails; the new entry goes to the back, so
registration order is preserved. -/
def CallbackSequence.add (s : CallbackSequence) (p : Nat) (f : Nat) : CallbackSequence :=
  ⟨s.entries ++ [⟨p, f⟩]⟩

/-- Modelled from the spec: CallbackSequence invocation calls every
registered operation on its target, in registration order, passing the
run handle through unchanged. The result is the emitted event trace. -/
def CallbackSequence.invoke (s : CallbackSequence) (run : RunHandle) : List Event :=
  s.entries.map (fun e => Event.callback e.target e.oper run)

/-- The state of a Geant4RunAction: a name fixed at construction and a
rebindable context reference (the Geant4Action base state this core
manipulates). -/
structure Geant4RunAction where
  name : String
  context : ContextRef
deriving DecidableEq, Repr

/-- Standard constructor: Geant4RunAction(context, nam). -/
def Geant4RunAction.mkAction (c : ContextRef) (nam : String) : Geant4RunAction :=
  { name := nam, context := c }

/-- Modelled from the spec: rebinding an action to a new context replaces
only the context reference; the name is untouched. -/
def Geant4RunAction.updateContext (a : Geant4RunAction) (c : ContextRef) : Geant4RunAction :=
  { a with context := c }

/-- The begin-of-run event an owned actor emits when dispatched. -/
def Geant4RunAction.beginEvent (a : Geant4RunAction) (run : RunHandle) : Event :=
  Event.actorBegin a.name run

/-- The end-of-run event an owned actor emits when dispatched. -/
def Geant4RunAction.endEvent (a : Geant4RunAction) (run : RunHandle) : Event :=
  Event.actorEnd a.name run

/-- The state of a Geant4SharedRunAction: the Geant4RunAction base state
plus the reference to the shared underlying action. The header
initializes the member with m_action = 0, modelled as none. -/
structure Geant4SharedRunAction where
  name : String
  context : ContextRef
  m_action : Option Geant4RunAction
deriving DecidableEq, Repr

/-- Standard constructor: Geant4SharedRunAction(context, nam); the header
declares the member initializer m_action = 0, so a fresh wrapper holds no
bound delegate. -/
def Geant4SharedRunAction.mkShared (c : ContextRef) (nam : String) : Geant4SharedRunAction :=
  { name := nam, context := c, m_action := none }

/-- Modelled from the spec: use(action) sets or replaces the wrapped
reference. -/
def Geant4SharedRunAction.use (w : Geant4SharedRunAction) (a : Geant4RunAction) :
    Geant4SharedRunAction :=
  { w with m_action := some a }

/-- Modelled from the spec: configureFiber rebinds only the wrapper's own
context to the new thread's context; the wrapped action is not rebound. -/
def Geant4SharedRunAction.configureFiber (w : Geant4SharedRunAction) (c : ContextRef) :
    Geant4SharedRunAction :=
  { w with context := c }

/-- Modelled from the spec: the begin-of-run call of a shared wrapper
delegates to the wrapped action when one is bound; an unbound wrapper
finds the null delegate (none), a configuration error, rather than an
arbitrary dangling reference. -/
def Geant4SharedRunAction.beginRun (w : Geant4SharedRunAction) (run : RunHandle) :
    Option Event :=
  w.m_action.map (fun a => a.beginEvent run)

/-- Modelled from the spec: the end-of-run call of a shared wrapper,
symmetric to beginRun. -/
def Geant4SharedRunAction.endRun (w : Geant4SharedRunAction) (run : RunHandle) :
    Option Event :=
  w.m_action.map (fun a => a.endEvent run)

/-- One setup-phase operation on a shared wrapper: a fiber reconfiguration
or a use(action) call binding the delegate. -/
inductive SharedOp where
  | fiber (c : ContextRef)
  | bindDelegate (a : Geant4RunAction)
deriving DecidableEq, Repr

/-- Whether an operation is a use(action) call. -/
def SharedOp.isUse : SharedOp → Bool
  | .bindDelegate _ => true
  | .fiber _ => false

/-- Apply one operation to a shared wrapper. -/
def applySharedOp (w : Geant4SharedRunAction) : SharedOp → Geant4SharedRunAction
  | .fiber c => w.configureFiber c
  | .bindDelegate a => w.use a

/-- Apply a sequence of operations to a shared wrapper, in order. -/
def applySharedOps (w : Geant4SharedRunAction) (ops : List SharedOp) :
    Geant4SharedRunAction :=
  ops.foldl applySharedOp w

/-- The state of a Geant4RunActionSequence: the begin and end callback
sequences, the owned actor list (Actors of Geant4RunAction), the
Geant4Action base state, and the protocol state of the configured/in-run
state machine described by the design document. -/
structure Geant4RunActionSequence where
  name : String
  context : ContextRef
  m_begin : CallbackSequence
  m_end : CallbackSequence
  m_actors : List Geant4RunAction
  in_run : Bool
deriving DecidableEq, Repr

/-- Standard constructor: Geant4RunActionSequence(context, nam); both
callback sequences and the actor list start empty and no run is active. -/
def Geant4RunActionSequence.mkSequence (c : ContextRef) (nam : String) :
    Geant4RunActionSequence :=
  { name := nam, context := c, m_begin := CallbackSequence.empty,
    m_end := CallbackSequence.empty, m_actors := [], in_run := false }

/-- Register a begin-of-run callback; the header's inline body is
m_begin.add(p, f). -/
def Geant4RunActionSequence.callAtBegin (s : Geant4RunActionSequence) (p : Nat) (f : Nat) :
    Geant4RunActionSequence :=
  { s with m_begin := s.m_begin.add p f }

/-- Register an end-of-run callback; the header's inline body is
m_end.add(p, f). -/
def Geant4RunActionSequence.callAtEnd (s : Geant4RunActionSequence) (p : Nat) (f : Nat) :
    Geant4RunActionSequence :=
  { s with m_end := s.m_end.add p f }

/-- Modelled from the spec: adopt takes ownership of the action and inserts
it keyed by its name; a name that is already present is deterministically
rejected and reported as a configuration error, leaving the list
unchanged. -/
def Geant4RunActionSequence.adopt (s : Geant4RunActionSequence) (a : Geant4RunAction) :
    Except String Geant4RunActionSequence :=
  if s.m_actors.any (fun x => x.name == a.name) then
    Except.error ("duplicate actor name: " ++ a.name)
  else
    Except.ok { s with m_actors := s.m_actors ++ [a] }

/-- Modelled from the spec: get(name) returns the owned action with that
name, or none for a missing name; it never throws. -/
def Geant4RunActionSequence.get (s : Geant4RunActionSequence) (nam : String) :
    Option Geant4RunAction :=
  s.m_actors.find? (fun x => x.name == nam)

/-- Modelled from the spec: updateContext propagates the new context to
every owned actor and also updates the sequence's own context
reference. -/
def Geant4RunActionSequence.updateContext (s : Geant4RunActionSequence) (c : ContextRef) :
    Geant4RunActionSequence :=
  { s with context := c, m_actors := s.m_actors.map (fun a => a.updateContext c) }

/-- Modelled from the spec: configureFiber propagates to every owned actor
exactly as updateContext does, rebinding the sequence itself as well. -/
def Geant4RunActionSequence.configureFiber (s : Geant4RunActionSequence) (c : ContextRef) :
    Geant4RunActionSequence :=
  { s with context := c, m_actors := s.m_actors.map (fun a => a.updateContext c) }

/-- Modelled from the spec: begin-of-run dispatch first invokes the begin
CallbackSequence, then every owned actor's begin, in adoption order, and
moves the state machine from configured to in-run; a second begin without
an intervening end is a protocol violation reported as fatal, never
silently absorbed. -/
def Geant4RunActionSequence.beginRun (s : Geant4RunActionSequence) (run : RunHandle) :
    Except String (List Event × Geant4RunActionSequence) :=
  if s.in_run then
    Except.error "protocol violation: begin of run while a run is active"
  else
    Except.ok (s.m_begin.invoke run ++ s.m_actors.map (fun a => a.beginEvent run),
      { s with in_run := true })

/-- Modelled from the spec: end-of-run dispatch is symmetric to beginRun,
using the end CallbackSequence's own registrations followed by every
owned actor's end, and moves the state machine back to configured; an end
without a preceding begin is a fatal protocol violation. -/
def Geant4RunActionSequence.endRun (s : Geant4RunActionSequence) (run : RunHandle) :
    Except String (List Event × Geant4RunActionSequence) :=
  if s.in_run then
    Except.ok (s.m_end.invoke run ++ s.m_actors.map (fun a => a.endEvent run),
      { s with in_run := false })
  else
    Except.error "protocol violation: end of run without a begin"

/-- Register a whole list of begin-of-run callbacks through callAtBegin, in
order. -/
def registerAllBegin (s : Geant4RunActionSequence) (regs : List (Nat × Nat)) :
    Geant4RunActionSequence :=
  regs.foldl (fun acc r => acc.callAtBegin r.1 r.2) s

/-- Register a whole list of end-of-run callbacks through callAtEnd, in
order. -/
def registerAllEnd (s : Geant4RunActionSequence) (regs : List (Nat × Nat)) :
    Geant4RunActionSequence :=
  regs.foldl (fun acc r => acc.callAtEnd r.1 r.2) s

/-- Where a thread stands with respect to one delegated call through a
shared wrapper: not yet started, currently inside the delegated call, or
finished (whether the delegate succeeded or reported failure). -/
inductive Phase where
  | idle
  | inCall
  | finished
deriving DecidableEq, Repr

/-- Global state of T worker threads all driving the same shared wrapper:
each thread's phase and the current holder of the wrapper's lock. -/
structure LockState (T : Nat) where
  pcs : Fin T → Phase
  holder : Option (Fin T)

/-- Initially every thread is idle and nobody holds the wrapper's lock. -/
def initLockState (T : Nat) : LockState T :=
  { pcs := fun _ => Phase.idle, holder := none }

/-- Modelled from the spec: the interleaving semantics of
Geant4SharedRunAction::begin and ::end under concurrent invocation. A
thread first acquires the wrapper's lock (possible only when nobody holds
it) and is then inside the delegated call; leaving the call (the ok flag
records whether the delegate succeeded or reported failure) releases the
lock on either exit path. -/
inductive SharedStep (T : Nat) : LockState T → LockState T → Prop where
  | acquire (s : LockState T) (t : Fin T) :
      s.pcs t = Phase.idle → s.holder = none →
      SharedStep T s { pcs := Function.update s.pcs t Phase.inCall, holder := some t }
  | release (s : LockState T) (t : Fin T) (ok : Bool) :
      s.pcs t = Phase.inCall → s.holder = some t →
      SharedStep T s { pcs := Function.update s.pcs t Phase.finished, holder := none }

/-- The states a group of T threads can reach from the initial state by
interleaved shared-wrapper calls. -/
def LockReachable (T : Nat) (s : LockState T) : Prop :=
  Relation.ReflTransGen (SharedStep T) (initLockState T) s

/-! Concrete objects used by the witnesses below. -/

/-- A concrete owned actor named X. -/
def actorX : Geant4RunAction := { name := "X", context := 1 }

/-- A concrete owned actor named A. -/
def actorA : Geant4RunAction := { name := "A", context := 1 }

/-- A concrete owned actor named B. -/
def actorB : Geant4RunAction := { name := "B", context := 1 }

/-- A second action that reuses the name X, for the duplicate-adoption
witness. -/
def actorX2 : Geant4RunAction := { name := "X", context := 2 }

/-- A configured sequence with two begin callbacks, two end callbacks and
the single owned actor X, not currently inside a run. -/
def seqS : Geant4RunActionSequence :=
  { name := "S", context := 1,
    m_begin := (CallbackSequence.empty.add 11 1).add 12 2,
    m_end := (CallbackSequence.empty.add 11 1).add 12 2,
    m_actors := [actorX],
    in_run := false }

/-- The sequence seqS while a run is active. -/
def seqSInRun : Geant4RunActionSequence :=
  { seqS with in_run := true }

/-- A sequence owning the two actors A and B. -/
def seqAB : Geant4RunActionSequence :=
  { name := "W", context := 1,
    m_begin := CallbackSequence.empty, m_end := CallbackSequence.empty,
    m_actors := [actorA, actorB], in_run := false }

/-- The sequence seqAB after adopting actor X as well. -/
def seqABX : Geant4RunActionSequence :=
  { seqAB with m_actors := seqAB.m_actors ++ [actorX] }

/-- The state of two threads right after thread 0 acquired the shared
wrapper's lock and entered the delegated call. -/
def lockState1 : LockState 2 :=
  { pcs := Function.update (initLockState 2).pcs 0 Phase.inCall, holder := some 0 }

/-!  Helper lemmas. -/

/-- Registering callbacks through callAtBegin appends the corresponding
entries to the begin callback sequence, in order. -/
theorem registerAllBegin_entries (s : Geant4RunActionSequence) (regs : List (Nat × Nat)) :
    (registerAllBegin s regs).m_begin.entries
      = s.m_begin.entries ++ regs.map (fun r => CallbackEntry.mk r.1 r.2) := by
  induction regs generalizing s with
  | nil => simp [registerAllBegin]
  | cons r rest ih =>
      have h := ih (s.callAtBegin r.1 r.2)
      simp only [registerAllBegin, List.foldl_cons] at h ⊢
      rw [h]
      simp [Geant4RunActionSequence.callAtBegin, CallbackSequence.add]

/-- Registering callbacks through callAtEnd appends the corresponding
entries to the end callback sequence, in order. -/
theorem registerAllEnd_entries (s : Geant4RunActionSequence) (regs : List (Nat × Nat)) :
    (registerAllEnd s regs).m_end.entries
      = s.m_end.entries ++ regs.map (fun r => CallbackEntry.mk r.1 r.2) := by
  induction regs generalizing s with
  | nil => simp [registerAllEnd]
  | cons r rest ih =>
      have h := ih (s.callAtEnd r.1 r.2)
      simp only [registerAllEnd, List.foldl_cons] at h ⊢
      rw [h]
      simp [Geant4RunActionSequence.callAtEnd, CallbackSequence.add]

/-- Successful adoption exactly appends the new actor to the owned list. -/
theorem adopt_ok_actors (s s2 : Geant4RunActionSequence) (a : Geant4RunAction)
    (h : s.adopt a = Except.ok s2) :
    s2 = { s with m_actors := s.m_actors ++ [a] }
      ∧ s.m_actors.any (fun x => x.name == a.name) = false := by
  unfold Geant4RunActionSequence.adopt at h
  by_cases hc : s.m_actors.any (fun x => x.name == a.name) = true
  · simp [hc] at h
  · simp only [Bool.not_eq_true] at hc
    simp [hc] at h
    exact ⟨h.symm, hc⟩

/-- In every reachable state, a thread inside the delegated call holds the
wrapper's lock. -/
theorem lock_held_of_inCall (T : Nat) (s : LockState T) (h : LockReachable T s) :
    ∀ t, s.pcs t = Phase.inCall → s.holder = some t := by
  induction h with
  | refl => intro t ht; simp [initLockState] at ht
  | tail _ hstep ih =>
      intro t ht
      cases hstep with
      | acquire t0 hidle hnone =>
          by_cases hte : t = t0
          · subst hte; rfl
          · have hh := ih t (by simpa [Function.update_noteq hte] using ht)
            rw [hnone] at hh
            cases hh
      | release t0 ok hin hold =>
          by_cases hte : t = t0
          · subst hte
            simp [Function.update_same] at ht
          · have hh := ih t (by simpa [Function.update_noteq hte] using ht)
            rw [hold] at hh
            exact absurd (Option.some.inj hh).symm hte

/-! The claims. -/

/-- C1: for every sequence of registrations made through callAtBegin (and
symmetrically callAtEnd), invoking the populated CallbackSequence on a run
handle emits exactly one callback event per registered (target, operation)
pair, in registration order, appended after whatever was already
registered; duplicates fire twice and nothing is reordered or skipped. -/
theorem invoke_in_registration_order (s : Geant4RunActionSequence)
    (regs : List (Nat × Nat)) (run : RunHandle) :
    ((registerAllBegin s regs).m_begin.invoke run
        = s.m_begin.invoke run ++ regs.map (fun r => Event.callback r.1 r.2 run))
    ∧ ((registerAllEnd s regs).m_end.invoke run
        = s.m_end.invoke run ++ regs.map (fun r => Event.callback r.1 r.2 run)) := by
  constructor
  · simp [CallbackSequence.invoke, registerAllBegin_entries, List.map_map]
  · simp [CallbackSequence.invoke, registerAllEnd_entries, List.map_map]

/-- C2: begin-of-run dispatch on a configured sequence emits the begin
CallbackSequence's events first and then every owned actor's begin, in
adoption order; end-of-run dispatch on an in-run sequence is symmetric,
driven by the end CallbackSequence's own registrations. -/
theorem begin_then_actors_order (s : Geant4RunActionSequence) (run : RunHandle)
    (hb : s.in_run = false) (s2 : Geant4RunActionSequence) (he : s2.in_run = true) :
    s.beginRun run
        = Except.ok (s.m_begin.invoke run ++ s.m_actors.map (fun a => a.beginEvent run),
            { s with in_run := true })
    ∧ s2.endRun run
        = Except.ok (s2.m_end.invoke run ++ s2.m_actors.map (fun a => a.endEvent run),
            { s2 with in_run := false }) := by
  constructor
  · simp [Geant4RunActionSequence.beginRun, hb]
  · simp [Geant4RunActionSequence.endRun, he]

/-- Witness for C2 at the concrete sequence seqS with callbacks (11,1),
(12,2) and owned actor X. -/
theorem begin_then_actors_order_witness :
    (seqS.in_run = false ∧ seqSInRun.in_run = true)
    ∧ (seqS.beginRun 7
          = Except.ok (seqS.m_begin.invoke 7 ++ seqS.m_actors.map (fun a => a.beginEvent 7),
              { seqS with in_run := true })
        ∧ seqSInRun.endRun 7
          = Except.ok
              (seqSInRun.m_end.invoke 7 ++ seqSInRun.m_actors.map (fun a => a.endEvent 7),
              { seqSInRun with in_run := false })) :=
  ⟨⟨rfl, rfl⟩, begin_then_actors_order seqS 7 rfl seqSInRun rfl⟩

/-- C3: in the interleaving model of Geant4SharedRunAction::begin/end, any
two threads that are simultaneously inside the delegated call in a
reachable state are the same thread: the wrapper's lock serializes all
delegate calls, and the lock is released on every exit path (the release
step covers success and delegate failure alike). -/
theorem shared_delegate_calls_serialized (T : Nat) (s : LockState T)
    (h : LockReachable T s) (t1 t2 : Fin T)
    (h1 : s.pcs t1 = Phase.inCall) (h2 : s.pcs t2 = Phase.inCall) : t1 = t2 := by
  have e1 := lock_held_of_inCall T s h t1 h1
  have e2 := lock_held_of_inCall T s h t2 h2
  exact Option.some.inj (e1.symm.trans e2)

/-- Witness for C3: after thread 0 of two acquires the lock and enters the
delegated call, the reachable state has thread 0 inside the call, and the
theorem instantiates to 0 = 0. -/
theorem shared_delegate_calls_serialized_witness :
    LockReachable 2 lockState1
    ∧ lockState1.pcs 0 = Phase.inCall
    ∧ (0 : Fin 2) = 0 := by
  have hr : LockReachable 2 lockState1 :=
    Relation.ReflTransGen.single (SharedStep.acquire (initLockState 2) 0 rfl rfl)
  have hp : lockState1.pcs 0 = Phase.inCall := by
    simp [lockState1, Function.update_same]
  exact ⟨hr, hp, shared_delegate_calls_serialized 2 lockState1 hr 0 0 hp hp⟩

/-- C4: adopting an action whose name is already carried by an owned actor
is deterministically rejected with a configuration error naming the
duplicate; in particular the call never succeeds, so the existing actor is
neither overwritten nor duplicated, and the rejection surfaces from the
setup-time adopt call itself, before any run is dispatched. -/
theorem adopt_duplicate_rejected (s : Geant4RunActionSequence) (a x : Geant4RunAction)
    (hx : x ∈ s.m_actors) (hn : x.name = a.name) :
    s.adopt a = Except.error ("duplicate actor name: " ++ a.name)
    ∧ ∀ s2, s.adopt a ≠ Except.ok s2 := by
  have hany : s.m_actors.any (fun y => y.name == a.name) = true :=
    List.any_eq_true.mpr ⟨x, hx, by simp [hn]⟩
  constructor
  · simp [Geant4RunActionSequence.adopt, hany]
  · intro s2
    simp [Geant4RunActionSequence.adopt, hany]

/-- Witness for C4: adopting a second action named X into the sequence seqS,
which already owns actor X, is rejected. -/
theorem adopt_duplicate_rejected_witness :
    (actorX ∈ seqS.m_actors ∧ actorX.name = actorX2.name)
    ∧ seqS.adopt actorX2 = Except.error ("duplicate actor name: " ++ actorX2.name) :=
  ⟨⟨by simp [seqS], rfl⟩,
    (adopt_duplicate_rejected seqS actorX2 actorX (by simp [seqS]) rfl).1⟩

/-- C5: after a successful adopt, get with the adopted action's name returns
exactly that instance; and get with a name carried by no owned actor
returns none (never an error). -/
theorem get_after_adopt (s s2 : Geant4RunActionSequence) (a : Geant4RunAction)
    (h : s.adopt a = Except.ok s2) (nam : String)
    (hmiss : ∀ x ∈ s.m_actors, x.name ≠ nam) :
    s2.get a.name = some a ∧ s.get nam = none := by
  obtain ⟨hs2, hany⟩ := adopt_ok_actors s s2 a h
  constructor
  · subst hs2
    have hpre : s.m_actors.find? (fun x => x.name == a.name) = none := by
      apply List.find?_eq_none.mpr
      intro x hx
      have := List.any_eq_false.mp hany x hx
      simpa using this
    simp [Geant4RunActionSequence.get, List.find?_append, hpre]
  · apply List.find?_eq_none.mpr
    intro x hx
    simpa using hmiss x hx

/-- Witness for C5: adopting actor X into seqAB and looking it up by name
returns it, and looking up the never-adopted name Z returns none. -/
theorem get_after_adopt_witness :
    (seqAB.adopt actorX = Except.ok seqABX
      ∧ actorA.name ≠ "Z" ∧ actorB.name ≠ "Z")
    ∧ (seqABX.get actorX.name = some actorX ∧ seqAB.get "Z" = none) :=
  ⟨⟨by rfl, by decide, by decide⟩,
    get_after_adopt seqAB seqABX actorX (by rfl) "Z" (by decide)⟩

/-- C6: rebinding a sequence through updateContext or configureFiber sets
the sequence's own context to the new context and rebinds every owned
actor's context to it as well. -/
theorem context_propagates_to_actors (s : Geant4RunActionSequence) (c : ContextRef) :
    ((s.updateContext c).context = c
      ∧ ∀ x ∈ (s.updateContext c).m_actors, x.context = c)
    ∧ ((s.configureFiber c).context = c
      ∧ ∀ x ∈ (s.configureFiber c).m_actors, x.context = c) := by
  refine ⟨⟨rfl, ?_⟩, ⟨rfl, ?_⟩⟩ <;>
    · intro x hx
      simp only [Geant4RunActionSequence.updateContext,
        Geant4RunActionSequence.configureFiber, List.mem_map] at hx
      obtain ⟨a, _, rfl⟩ := hx
      rfl

/-- Witness for C6: rebinding seqAB to context 5 leaves actor A rebound to
context 5 among the owned actors. -/
theorem context_propagates_to_actors_witness :
    Geant4RunAction.mk "A" 5 ∈ (seqAB.updateContext 5).m_actors
    ∧ (Geant4RunAction.mk "A" 5).context = 5 :=
  ⟨by decide,
    (context_propagates_to_actors seqAB 5).1.2 (Geant4RunAction.mk "A" 5) (by decide)⟩

/-- C7: the sequence alternates between configured and in-run: a begin
received while a run is active, and an end received while no run is
active, are protocol violations reported as fatal errors, never silently
absorbed. -/
theorem protocol_violation_fatal (s : Geant4RunActionSequence) (run : RunHandle) :
    (s.in_run = true →
      s.beginRun run = Except.error "protocol violation: begin of run while a run is active")
    ∧ (s.in_run = false →
      s.endRun run = Except.error "protocol violation: end of run without a begin") := by
  constructor
  · intro h; simp [Geant4RunActionSequence.beginRun, h]
  · intro h; simp [Geant4RunActionSequence.endRun, h]

/-- Witness for C7: a second begin on the in-run sequence seqSInRun and an
end on the configured sequence seqS both fail fatally. -/
theorem protocol_violation_fatal_witness :
    (seqSInRun.in_run = true ∧ seqS.in_run = false)
    ∧ seqSInRun.beginRun 3
        = Except.error "protocol violation: begin of run while a run is active"
    ∧ seqS.endRun 3 = Except.error "protocol violation: end of run without a begin" :=
  ⟨⟨rfl, rfl⟩,
    (protocol_violation_fatal seqSInRun 3).1 rfl,
    (protocol_violation_fatal seqS 3).2 rfl⟩

/-- C8: configureFiber on a shared wrapper rebinds only the wrapper's own
context; the wrapped delegate reference, and with it the delegate's whole
state including its context binding, is left untouched. -/
theorem shared_fiber_rebind_frames_delegate (w : Geant4SharedRunAction) (c : ContextRef) :
    (w.configureFiber c).context = c
    ∧ (w.configureFiber c).m_action = w.m_action
    ∧ (w.configureFiber c).m_action.map Geant4RunAction.context
        = w.m_action.map Geant4RunAction.context :=
  ⟨rfl, rfl, rfl⟩

/-- C9: an action's name is fixed at construction and no operation of the
core changes it: context rebinding of an action, of a sequence (which
rebinds the owned actors), of a shared wrapper, delegate binding through
use, adoption, and run dispatch all preserve every name. -/
theorem name_immutable :
    (∀ (c : ContextRef) (nam : String), (Geant4RunAction.mkAction c nam).name = nam)
    ∧ (∀ (a : Geant4RunAction) (c : ContextRef), (a.updateContext c).name = a.name)
    ∧ (∀ (s : Geant4RunActionSequence) (c : ContextRef),
        (s.updateContext c).name = s.name
        ∧ (s.updateContext c).m_actors.map Geant4RunAction.name
            = s.m_actors.map Geant4RunAction.name
        ∧ (s.configureFiber c).name = s.name
        ∧ (s.configureFiber c).m_actors.map Geant4RunAction.name
            = s.m_actors.map Geant4RunAction.name)
    ∧ (∀ (w : Geant4SharedRunAction) (c : ContextRef), (w.configureFiber c).name = w.name)
    ∧ (∀ (w : Geant4SharedRunAction) (a : Geant4RunAction), (w.use a).name = w.name)
    ∧ (∀ (s s2 : Geant4RunActionSequence) (a : Geant4RunAction),
        s.adopt a = Except.ok s2 →
        s2.name = s.name
        ∧ s2.m_actors.map Geant4RunAction.name
            = s.m_actors.map Geant4RunAction.name ++ [a.name])
    ∧ (∀ (s : Geant4RunActionSequence) (run : RunHandle) (evs : List Event)
        (s2 : Geant4RunActionSequence),
        (s.beginRun run = Except.ok (evs, s2) ∨ s.endRun run = Except.ok (evs, s2)) →
        s2.name = s.name
        ∧ s2.m_actors.map Geant4RunAction.name = s.m_actors.map Geant4RunAction.name) := by
  refine ⟨fun c nam => rfl, fun a c => rfl,
    fun s c => ⟨rfl, ?_, rfl, ?_⟩, fun w c => rfl, fun w a => rfl, ?_, ?_⟩
  · rw [show (s.updateContext c).m_actors
        = s.m_actors.map (fun a => a.updateContext c) from rfl, List.map_map]
    rfl
  · rw [show (s.configureFiber c).m_actors
        = s.m_actors.map (fun a => a.updateContext c) from rfl, List.map_map]
    rfl
  · intro s s2 a h
    obtain ⟨hs2, -⟩ := adopt_ok_actors s s2 a h
    subst hs2
    exact ⟨rfl, by simp⟩
  · intro s run evs s2 h
    rcases h with h | h
    · unfold Geant4RunActionSequence.beginRun at h
      by_cases hr : s.in_run <;> simp [hr] at h
      obtain ⟨-, h2⟩ := h
      subst h2
      exact ⟨rfl, rfl⟩
    · unfold Geant4RunActionSequence.endRun at h
      by_cases hr : s.in_run <;> simp [hr] at h
      obtain ⟨-, h2⟩ := h
      subst h2
      exact ⟨rfl, rfl⟩

/-- Witness for C9 at the adoption of actor X into seqAB and at the run
dispatch of seqS. -/
theorem name_immutable_witness :
    (seqAB.adopt actorX = Except.ok seqABX
      ∧ seqABX.name = seqAB.name
      ∧ seqABX.m_actors.map Geant4RunAction.name
          = seqAB.m_actors.map Geant4RunAction.name ++ [actorX.name])
    ∧ (seqS.beginRun 2
        = Except.ok ([Event.callback 11 1 2, Event.callback 12 2 2,
            Event.actorBegin "X" 2], seqSInRun)
      ∧ seqSInRun.name = seqS.name
      ∧ seqSInRun.m_actors.map Geant4RunAction.name
          = seqS.m_actors.map Geant4RunAction.name) := by
  have h5 := name_immutable.2.2.2.2.2.1 seqAB seqABX actorX (by rfl)
  have h6 := name_immutable.2.2.2.2.2.2 seqS 2
    [Event.callback 11 1 2, Event.callback 12 2 2, Event.actorBegin "X" 2]
    seqSInRun (Or.inl (by rfl))
  exact ⟨⟨by rfl, h5.1, h5.2⟩, ⟨by rfl, h6.1, h6.2⟩⟩

/-- Applying setup operations without any use(action) call never binds the
delegate of a wrapper that starts unbound. -/
theorem applySharedOps_no_use (w : Geant4SharedRunAction) (ops : List SharedOp)
    (hw : w.m_action = none) (h : ∀ o ∈ ops, o.isUse = false) :
    (applySharedOps w ops).m_action = none := by
  induction ops generalizing w with
  | nil => simpa [applySharedOps] using hw
  | cons o rest ih =>
      cases o with
      | fiber c =>
          have hrec := ih (w.configureFiber c)
            (by simpa [Geant4SharedRunAction.configureFiber] using hw)
            (fun o ho => h o (List.mem_cons_of_mem _ ho))
          simpa [applySharedOps, List.foldl_cons, applySharedOp] using hrec
      | bindDelegate a =>
          have hfalse := h _ (List.mem_cons_self _ _)
          simp [SharedOp.isUse] at hfalse

/-- C10: a freshly constructed shared wrapper holds no bound delegate, any
sequence of setup operations that contains no use(action) call leaves it
unbound, and begin or end dispatched in that state find the null delegate
(none) rather than a dangling one. -/
theorem shared_wrapper_unbound_until_use (c : ContextRef) (nam : String)
    (ops : List SharedOp) (run : RunHandle) (h : ∀ o ∈ ops, o.isUse = false) :
    (Geant4SharedRunAction.mkShared c nam).m_action = none
    ∧ (applySharedOps (Geant4SharedRunAction.mkShared c nam) ops).m_action = none
    ∧ (applySharedOps (Geant4SharedRunAction.mkShared c nam) ops).beginRun run = none
    ∧ (applySharedOps (Geant4SharedRunAction.mkShared c nam) ops).endRun run = none := by
  have hm := applySharedOps_no_use (Geant4SharedRunAction.mkShared c nam) ops rfl h
  exact ⟨rfl, hm, by simp [Geant4SharedRunAction.beginRun, hm],
    by simp [Geant4SharedRunAction.endRun, hm]⟩

/-- Witness for C10 with two fiber reconfigurations and no use call. -/
theorem shared_wrapper_unbound_until_use_witness :
    ((SharedOp.fiber 3).isUse = false ∧ (SharedOp.fiber 4).isUse = false)
    ∧ ((Geant4SharedRunAction.mkShared 1 "shared").m_action = none
      ∧ (applySharedOps (Geant4SharedRunAction.mkShared 1 "shared")
          [SharedOp.fiber 3, SharedOp.fiber 4]).m_action = none
      ∧ (applySharedOps (Geant4SharedRunAction.mkShared 1 "shared")
          [SharedOp.fiber 3, SharedOp.fiber 4]).beginRun 9 = none
      ∧ (applySharedOps (Geant4SharedRunAction.mkShared 1 "shared")
          [SharedOp.fiber 3, SharedOp.fiber 4]).endRun 9 = none) :=
  ⟨⟨rfl, rfl⟩,
    shared_wrapper_unbound_until_use 1 "shared" [SharedOp.fiber 3, SharedOp.fiber 4] 9
      (by decide)⟩

end DDG4
